import Mathlib

/-!
Shallow embedding of the NoteEase note store (src/store/useStore.ts) and its
persistence gateway (loadInitialState), together with proofs of the spec's
claims about them.

Modelling conventions:
* JS strings are Lean `String`s.  The JS string operations used by the store
  (`toLowerCase`, `trim`, `includes`) are modelled structurally over the
  underlying character list so that they compute by kernel reduction.
* Timestamps: the source stores `new Date().toISOString()` strings and
  compares them via `new Date(s).getTime()`.  ISO-8601 strings produced and
  consumed this way are in order-preserving bijection with their
  epoch-millisecond values, so timestamps are modelled by that value (`Nat`).
* `Array.prototype.sort` with a consistent comparator is a stable sort by the
  total preorder the comparator induces; the result of a stable sort is
  uniquely determined, and is modelled here by `List.insertionSort`.
* Asynchronous storage writes (`saveNotes`, `saveTheme`, `saveCategories`,
  `AsyncStorage.clear`) are fire-and-forget side effects that never touch the
  in-memory state; they are dropped from the state model.
* Fallible inputs (stored records, parse outcomes) are passed explicitly:
  a stored record is `Option (Except String T)` — absent, parsed value, or a
  parse exception carrying its message.
-/

namespace NoteEase

/-- JS `String.prototype.toLowerCase`, modelled character-wise. -/
def jsToLower (s : String) : String := ⟨s.data.map Char.toLower⟩

/-- Remove leading and trailing whitespace from a character list. -/
def jsTrimList (l : List Char) : List Char :=
  ((l.dropWhile Char.isWhitespace).reverse.dropWhile Char.isWhitespace).reverse

/-- JS `String.prototype.trim`. -/
def jsTrim (s : String) : String := ⟨jsTrimList s.data⟩

/-- Substring test on character lists (JS `String.prototype.includes`). -/
def listIncludes (sub : List Char) : List Char → Bool
  | [] => sub.isEmpty
  | c :: rest => sub.isPrefixOf (c :: rest) || listIncludes sub rest

/-- JS `s.includes(sub)`. -/
def strIncludes (s sub : String) : Bool := listIncludes sub.data s.data

/-- A note (src/types/index.ts `Note`); timestamps as epoch milliseconds. -/
structure Note where
  id : String
  title : String
  content : String
  createdAt : Nat
  updatedAt : Nat
  category : String
  isPinned : Bool
  isDeleted : Bool
deriving DecidableEq, Repr

/-- The argument of `addNote` (`Omit<Note, 'id' | 'createdAt' | 'updatedAt'>`). -/
structure NoteDraft where
  title : String
  content : String
  category : String
  isPinned : Bool
  isDeleted : Bool
deriving DecidableEq, Repr

/-- The argument of `updateNote` (`Partial<Note>`): present keys override. -/
structure NotePatch where
  id : Option String := none
  title : Option String := none
  content : Option String := none
  createdAt : Option Nat := none
  updatedAt : Option Nat := none
  category : Option String := none
  isPinned : Option Bool := none
  isDeleted : Option Bool := none
deriving DecidableEq, Repr

/-- The in-memory zustand store state (src/types/index.ts `AppState`,
data fields only — the operations are modelled as functions below). -/
structure AppState where
  notes : List Note
  filteredNotes : List Note
  activeCategory : String
  searchQuery : String
  isDarkMode : Bool
  isInitialized : Bool
  customCategories : List String
  initialNoteCategory : Option String
deriving DecidableEq, Repr

/-- The initial store state (useStore.ts lines 179-186). -/
def initialState : AppState :=
  { notes := []
    filteredNotes := []
    activeCategory := "all"
    searchQuery := ""
    isDarkMode := false
    isInitialized := false
    customCategories := []
    initialNoteCategory := none }

/-- The sort comparator of `filterNotes` (useStore.ts lines 578-584), as the
non-strict order `cmp a b <= 0`:
pinned before unpinned, then newest `createdAt` first. -/
def noteLE (a b : Note) : Bool :=
  if a.isPinned && !b.isPinned then true
  else if !a.isPinned && b.isPinned then false
  else decide (b.createdAt ≤ a.createdAt)

/-- `noteLE` as a relation, for use with `List.insertionSort`. -/
def noteRel (a b : Note) : Prop := noteLE a b = true

instance : DecidableRel noteRel :=
  fun a b => inferInstanceAs (Decidable (noteLE a b = true))

instance : IsTotal Note noteRel where
  total a b := by
    unfold noteRel noteLE
    cases ha : a.isPinned <;> cases hb : b.isPinned <;>
      simp [ha, hb, Nat.le_total]

instance : IsTrans Note noteRel where
  trans a b c hab hbc := by
    unfold noteRel noteLE at *
    cases ha : a.isPinned <;> cases hb : b.isPinned <;> cases hc : c.isPinned <;>
      simp_all <;> omega

/-- The stable sort of `filterNotes` step 4 (useStore.ts lines 578-584). -/
def sortNotes (l : List Note) : List Note := List.insertionSort noteRel l

/-- `filterNotes` step 2 (useStore.ts lines 563-565): category filter. -/
def categoryFilter (l : List Note) (activeCategory : String) : List Note :=
  if activeCategory ≠ "all" then
    l.filter (fun note => note.category == activeCategory)
  else l

/-- `filterNotes` step 3 (useStore.ts lines 568-575): search filter.  Note the
source lowercases the raw (untrimmed) query and only uses `trim` for the
emptiness test. -/
def searchFilter (l : List Note) (searchQuery : String) : List Note :=
  if jsTrim searchQuery ≠ "" then
    l.filter (fun note =>
      strIncludes (jsToLower note.title) (jsToLower searchQuery) ||
      strIncludes (jsToLower note.content) (jsToLower searchQuery))
  else l

/-- `filterNotes` (useStore.ts lines 556-587): drop deleted notes, filter by
category and search query, then sort. -/
def filterNotes (notes : List Note) (activeCategory searchQuery : String) :
    List Note :=
  sortNotes
    (searchFilter
      (categoryFilter (notes.filter (fun note => !note.isDeleted)) activeCategory)
      searchQuery)

/-- Set `notes` and recompute `filteredNotes` — the `{ notes: updatedNotes,
filteredNotes: get().filterNotes(updatedNotes) }` pattern every structural
mutation ends with. -/
def recompute (s : AppState) (updatedNotes : List Note) : AppState :=
  { s with notes := updatedNotes
           filteredNotes := filterNotes updatedNotes s.activeCategory s.searchQuery }

/-- `addCustomCategory` (useStore.ts lines 314-330): no-op on
whitespace-only input, no-op on an exact duplicate, else append verbatim. -/
def addCustomCategory (s : AppState) (category : String) : AppState :=
  if jsTrim category = "" then s
  else if s.customCategories.contains category then s
  else { s with customCategories := s.customCategories ++ [category] }

/-- `removeCustomCategory` (useStore.ts lines 333-342). -/
def removeCustomCategory (s : AppState) (category : String) : AppState :=
  { s with customCategories := s.customCategories.filter (fun cat => cat != category) }

/-- `toggleTheme` (useStore.ts lines 305-311). -/
def toggleTheme (s : AppState) : AppState :=
  { s with isDarkMode := !s.isDarkMode }

/-- `setInitialNoteCategory` (useStore.ts lines 189-191). -/
def setInitialNoteCategory (s : AppState) (category : Option String) : AppState :=
  { s with initialNoteCategory := category }

/-- The new note built by `addNote` (useStore.ts lines 349-354): fresh id,
`createdAt = updatedAt = now`, draft fields copied verbatim. -/
def mkNewNote (now : Nat) (id : String) (draft : NoteDraft) : Note :=
  { id := id
    title := draft.title
    content := draft.content
    createdAt := now
    updatedAt := now
    category := draft.category
    isPinned := draft.isPinned
    isDeleted := draft.isDeleted }

/-- The category-registration side condition of `addNote` (useStore.ts
lines 368-377): a non-reserved, not-yet-registered category string is added
to the registry. -/
def registerDraftCategory (s : AppState) (category : String) : AppState :=
  if category != "all" && category != "personal" &&
     category != "work" && category != "family" &&
     !(s.customCategories.contains category)
  then addCustomCategory s category else s

/-- `addNote` (useStore.ts lines 345-385): prepend the new note, register a
novel non-reserved category as a side effect, recompute the view.
`now` is the current time, `id` the freshly generated id. -/
def addNote (s : AppState) (now : Nat) (id : String) (draft : NoteDraft) : AppState :=
  recompute (registerDraftCategory s draft.category) (mkNewNote now id draft :: s.notes)

/-- The merge `{ ...note, ...noteUpdates, updatedAt: now }` of `updateNote`
(useStore.ts line 399): present patch keys override, then `updatedAt` is
unconditionally set to `now`. -/
def applyPatch (note : Note) (p : NotePatch) (now : Nat) : Note :=
  { id := p.id.getD note.id
    title := p.title.getD note.title
    content := p.content.getD note.content
    createdAt := p.createdAt.getD note.createdAt
    updatedAt := now
    category := p.category.getD note.category
    isPinned := p.isPinned.getD note.isPinned
    isDeleted := p.isDeleted.getD note.isDeleted }

/-- The category-registration side condition of `updateNote` (useStore.ts
lines 410-421).  `noteUpdates.category &&` is JS truthiness: an absent key
and the empty string both skip registration. -/
def registerPatchCategory (s : AppState) (p : NotePatch) : AppState :=
  match p.category with
  | some c =>
    if c != "" && c != "all" && c != "personal" && c != "work" &&
       c != "family" && !(s.customCategories.contains c)
    then addCustomCategory s c else s
  | none => s

/-- `updateNote` (useStore.ts lines 387-429): no-op when the id is absent;
otherwise merge the patch, register a novel truthy non-reserved patch
category, recompute the view. -/
def updateNote (s : AppState) (now : Nat) (id : String) (p : NotePatch) : AppState :=
  match s.notes.find? (fun note => note.id == id) with
  | none => s
  | some _ =>
    recompute (registerPatchCategory s p)
      (s.notes.map (fun note => if note.id == id then applyPatch note p now else note))

/-- `deleteNote` (useStore.ts lines 431-452): soft delete. -/
def deleteNote (s : AppState) (id : String) : AppState :=
  recompute s
    (s.notes.map (fun note =>
      if note.id == id then { note with isDeleted := true } else note))

/-- `restoreNote` (useStore.ts lines 454-475). -/
def restoreNote (s : AppState) (id : String) : AppState :=
  recompute s
    (s.notes.map (fun note =>
      if note.id == id then { note with isDeleted := false } else note))

/-- `permanentlyDeleteNote` (useStore.ts lines 477-496). -/
def permanentlyDeleteNote (s : AppState) (id : String) : AppState :=
  recompute s (s.notes.filter (fun note => note.id != id))

/-- `pinNote` (useStore.ts lines 498-519). -/
def pinNote (s : AppState) (id : String) : AppState :=
  recompute s
    (s.notes.map (fun note =>
      if note.id == id then { note with isPinned := true } else note))

/-- `unpinNote` (useStore.ts lines 521-542). -/
def unpinNote (s : AppState) (id : String) : AppState :=
  recompute s
    (s.notes.map (fun note =>
      if note.id == id then { note with isPinned := false } else note))

/-- `setActiveCategory` (useStore.ts lines 544-548): set the selector, then
recompute the view against the current notes. -/
def setActiveCategory (s : AppState) (category : String) : AppState :=
  recompute { s with activeCategory := category } s.notes

/-- `setSearchQuery` (useStore.ts lines 550-554). -/
def setSearchQuery (s : AppState) (query : String) : AppState :=
  recompute { s with searchQuery := query } s.notes

/-- The result of `loadInitialState` (`InitResult` in src/types/index.ts);
`none` models an absent (`undefined`) field. -/
structure LoadResult where
  notes : List Note
  isDarkMode : Bool
  customCategories : List String
  storageError : Option Bool := none
  errorMessage : Option String := none
deriving DecidableEq, Repr

/-- The known too-large failure signature test (useStore.ts lines 60-62). -/
def rowTooBigSignature (msg : String) : Bool :=
  strIncludes msg "Row too big" || strIncludes msg "CursorWindow"

/-- The user-facing message of the too-large branch (useStore.ts line 72). -/
def tooLargeMessage : String :=
  "Your notes data exceeded the storage limit. The app has been reset. Please avoid storing very large images directly in notes."

/-- The generic message of the outer catch of `loadInitialState`
(useStore.ts line 89). -/
def genericLoadErrorMessage : String :=
  "There was an error loading your notes. The app data has been reset."

/-- The inner catch of `loadInitialState` (useStore.ts lines 56-75), entered
with the values parsed before the failing record.  On the too-large
signature it clears storage (a side effect outside this state model) and
returns an error result; on any other signature it falls through to the
normal return with the data accumulated so far — no error fields are set. -/
def handleParseFailure (msg : String) (notesData : List Note) (themeData : Bool)
    (categoriesData : List String) : LoadResult :=
  if rowTooBigSignature msg then
    { notes := []
      isDarkMode := false
      customCategories := []
      storageError := some true
      errorMessage := some tooLargeMessage }
  else
    { notes := notesData
      isDarkMode := themeData
      customCategories := categoriesData }

/-- The parse phase of `loadInitialState` (useStore.ts lines 42-81).  Each
stored record is `none` (absent), `some (.ok v)` (parses to `v`) or
`some (.error msg)` (parse throws `msg`); records are parsed in order
notes, theme, categories, and the first throw jumps to the catch. -/
def loadInitialState (savedNotes : Option (Except String (List Note)))
    (savedTheme : Option (Except String Bool))
    (savedCategories : Option (Except String (List String))) : LoadResult :=
  match savedNotes with
  | some (.error msg) => handleParseFailure msg [] false []
  | _ =>
    let notesData := match savedNotes with | some (.ok v) => v | _ => []
    match savedTheme with
    | some (.error msg) => handleParseFailure msg notesData false []
    | _ =>
      let themeData := match savedTheme with | some (.ok v) => v | _ => false
      match savedCategories with
      | some (.error msg) => handleParseFailure msg notesData themeData []
      | _ =>
        let categoriesData := match savedCategories with | some (.ok v) => v | _ => []
        { notes := notesData
          isDarkMode := themeData
          customCategories := categoriesData }

/-- `initialize` (useStore.ts lines 217-302).  The input is the outcome of
`loadInitialState`: `.ok result` for a normal return, `.error ()` when the
load itself threw (the `loadError` catch, lines 261-283, which resets to the
same empty state as the storage-error branch).  The returned `Bool` records
whether a storage load was performed by this call. -/
def initializeStore (s : AppState) (load : Except Unit LoadResult) : AppState × Bool :=
  if s.isInitialized then (s, false)
  else
    match load with
    | .error _ =>
      ({ s with notes := []
                filteredNotes := []
                customCategories := []
                isDarkMode := false
                isInitialized := true }, true)
    | .ok result =>
      if result.storageError = some true then
        ({ s with notes := []
                  filteredNotes := []
                  customCategories := []
                  isDarkMode := false
                  isInitialized := true }, true)
      else
        let s1 := { s with notes := result.notes
                           isDarkMode := result.isDarkMode
                           customCategories := result.customCategories
                           isInitialized := true }
        ({ s1 with filteredNotes := filterNotes s1.notes s1.activeCategory s1.searchQuery },
         true)

/-- `resetAppData` (useStore.ts lines 194-214): on a successful storage
clear, reset everything and stay `Ready`; on failure, report `false` with the
state untouched. -/
def resetAppData (s : AppState) (clearSucceeded : Bool) : AppState × Bool :=
  if clearSucceeded then
    ({ s with notes := []
              filteredNotes := []
              activeCategory := "all"
              searchQuery := ""
              isDarkMode := false
              customCategories := []
              isInitialized := true }, true)
  else (s, false)

/-- The states reachable from the initial store state by any sequence of
store operations, with arbitrary operation inputs (time stamps, generated
ids, drafts, patches, load outcomes). -/
inductive Reachable : AppState → Prop where
  | init : Reachable initialState
  | stepInitializeStore (s : AppState) (load : Except Unit LoadResult) :
      Reachable s → Reachable (initializeStore s load).1
  | stepResetAppData (s : AppState) (ok : Bool) :
      Reachable s → Reachable (resetAppData s ok).1
  | stepToggleTheme (s : AppState) :
      Reachable s → Reachable (toggleTheme s)
  | stepAddCustomCategory (s : AppState) (c : String) :
      Reachable s → Reachable (addCustomCategory s c)
  | stepRemoveCustomCategory (s : AppState) (c : String) :
      Reachable s → Reachable (removeCustomCategory s c)
  | stepSetInitialNoteCategory (s : AppState) (c : Option String) :
      Reachable s → Reachable (setInitialNoteCategory s c)
  | stepAddNote (s : AppState) (now : Nat) (id : String) (draft : NoteDraft) :
      Reachable s → Reachable (addNote s now id draft)
  | stepUpdateNote (s : AppState) (now : Nat) (id : String) (p : NotePatch) :
      Reachable s → Reachable (updateNote s now id p)
  | stepDeleteNote (s : AppState) (id : String) :
      Reachable s → Reachable (deleteNote s id)
  | stepRestoreNote (s : AppState) (id : String) :
      Reachable s → Reachable (restoreNote s id)
  | stepPermanentlyDeleteNote (s : AppState) (id : String) :
      Reachable s → Reachable (permanentlyDeleteNote s id)
  | stepPinNote (s : AppState) (id : String) :
      Reachable s → Reachable (pinNote s id)
  | stepUnpinNote (s : AppState) (id : String) :
      Reachable s → Reachable (unpinNote s id)
  | stepSetActiveCategory (s : AppState) (c : String) :
      Reachable s → Reachable (setActiveCategory s c)
  | stepSetSearchQuery (s : AppState) (q : String) :
      Reachable s → Reachable (setSearchQuery s q)

/-! ### Lemmas about `filterNotes` -/

lemma mem_sortNotes {n : Note} {l : List Note} : n ∈ sortNotes l ↔ n ∈ l :=
  (List.perm_insertionSort noteRel l).mem_iff

lemma sortNotes_pairwise (l : List Note) : (sortNotes l).Pairwise noteRel :=
  List.sorted_insertionSort noteRel l

lemma mem_searchFilter {n : Note} {l : List Note} {q : String}
    (h : n ∈ searchFilter l q) : n ∈ l := by
  unfold searchFilter at h
  split at h
  · exact (List.mem_filter.mp h).1
  · exact h

lemma mem_categoryFilter {n : Note} {l : List Note} {ac : String}
    (h : n ∈ categoryFilter l ac) : n ∈ l := by
  unfold categoryFilter at h
  split at h
  · exact (List.mem_filter.mp h).1
  · exact h

lemma filterNotes_isDeleted {n : Note} {notes : List Note} {ac q : String}
    (h : n ∈ filterNotes notes ac q) : n.isDeleted = false := by
  unfold filterNotes at h
  have h1 := mem_categoryFilter (mem_searchFilter (mem_sortNotes.mp h))
  have h2 := (List.mem_filter.mp h1).2
  simpa using h2

lemma filterNotes_category {n : Note} {notes : List Note} {ac q : String}
    (hac : ac ≠ "all") (h : n ∈ filterNotes notes ac q) : n.category = ac := by
  unfold filterNotes at h
  have h1 := mem_searchFilter (mem_sortNotes.mp h)
  unfold categoryFilter at h1
  rw [if_pos hac] at h1
  have h2 := (List.mem_filter.mp h1).2
  simpa using h2

lemma filterNotes_search {n : Note} {notes : List Note} {ac q : String}
    (hq : jsTrim q ≠ "") (h : n ∈ filterNotes notes ac q) :
    (strIncludes (jsToLower n.title) (jsToLower q) ||
     strIncludes (jsToLower n.content) (jsToLower q)) = true := by
  unfold filterNotes at h
  have h1 := mem_sortNotes.mp h
  unfold searchFilter at h1
  rw [if_pos hq] at h1
  exact (List.mem_filter.mp h1).2

lemma filterNotes_nil (ac q : String) : filterNotes [] ac q = [] := by
  unfold filterNotes categoryFilter searchFilter
  split <;> split <;> rfl

/-! ### The view-consistency invariant -/

/-- `filteredNotes` is exactly the filter algorithm applied to the current
collection and selectors. -/
def ViewConsistent (s : AppState) : Prop :=
  s.filteredNotes = filterNotes s.notes s.activeCategory s.searchQuery

lemma recompute_viewConsistent (s : AppState) (l : List Note) :
    ViewConsistent (recompute s l) := rfl

lemma reachable_viewConsistent {s : AppState} (hs : Reachable s) :
    ViewConsistent s := by
  induction hs with
  | init => rfl
  | stepInitializeStore s load _ ih =>
    unfold initializeStore
    split
    · exact ih
    · match load with
      | .error _ => exact (filterNotes_nil _ _).symm
      | .ok result =>
        by_cases herr : result.storageError = some true
        · simp only [herr, if_pos]
          exact (filterNotes_nil _ _).symm
        · simp only [if_neg herr]
          rfl
  | stepResetAppData s ok _ ih =>
    unfold resetAppData
    split
    · exact (filterNotes_nil _ _).symm
    · exact ih
  | stepToggleTheme s _ ih => exact ih
  | stepAddCustomCategory s c _ ih =>
    unfold addCustomCategory
    split
    · exact ih
    · split
      · exact ih
      · exact ih
  | stepRemoveCustomCategory s c _ ih => exact ih
  | stepSetInitialNoteCategory s c _ ih => exact ih
  | stepAddNote s now id draft _ ih =>
    unfold addNote
    exact recompute_viewConsistent _ _
  | stepUpdateNote s now id p _ ih =>
    unfold updateNote
    split
    · exact ih
    · exact recompute_viewConsistent _ _
  | stepDeleteNote s id _ ih => exact recompute_viewConsistent _ _
  | stepRestoreNote s id _ ih => exact recompute_viewConsistent _ _
  | stepPermanentlyDeleteNote s id _ ih => exact recompute_viewConsistent _ _
  | stepPinNote s id _ ih => exact recompute_viewConsistent _ _
  | stepUnpinNote s id _ ih => exact recompute_viewConsistent _ _
  | stepSetActiveCategory s c _ ih => exact recompute_viewConsistent _ _
  | stepSetSearchQuery s q _ ih => exact recompute_viewConsistent _ _

/-! ### Claim theorems -/

/-- C1: For every reachable store state (any sequence of mutations and
selector changes starting from the initial or loaded state), the derived
`filteredNotes` list contains no note whose `isDeleted` flag is true. -/
theorem filteredNotes_never_deleted (s : AppState) (hs : Reachable s) :
    ∀ n ∈ s.filteredNotes, n.isDeleted = false := by
  have hc := reachable_viewConsistent hs
  unfold ViewConsistent at hc
  rw [hc]
  exact fun _ hn => filterNotes_isDeleted hn

/-- Witness for C1 at a concrete reachable state: one note added to the
initial state; the added note sits in `filteredNotes` and is not deleted. -/
theorem filteredNotes_never_deleted_witness :
    (mkNewNote 5 "na" ⟨"T", "C", "work", false, false⟩).isDeleted = false :=
  filteredNotes_never_deleted
    (addNote initialState 5 "na" ⟨"T", "C", "work", false, false⟩)
    (Reachable.stepAddNote initialState 5 "na" _ Reachable.init)
    _ (by decide)

/-- C2: In any `filterNotes` result, a pinned note never follows an unpinned
one, and among notes of equal pinned status the one with the later
`createdAt` timestamp comes first: for positions `i < j`, if the note at `j`
is pinned then so is the note at `i`, and if both have the same pinned
status then `createdAt` at `j` is at most `createdAt` at `i`. -/
theorem filterNotes_sort_order (notes : List Note) (ac q : String)
    (i j : Fin (filterNotes notes ac q).length) (hij : i < j) :
    (((filterNotes notes ac q).get j).isPinned = true →
      ((filterNotes notes ac q).get i).isPinned = true) ∧
    (((filterNotes notes ac q).get i).isPinned = ((filterNotes notes ac q).get j).isPinned →
      ((filterNotes notes ac q).get j).createdAt ≤
        ((filterNotes notes ac q).get i).createdAt) := by
  have hrel : noteRel ((filterNotes notes ac q).get i) ((filterNotes notes ac q).get j) := by
    have hp : (filterNotes notes ac q).Pairwise noteRel := sortNotes_pairwise _
    exact List.pairwise_iff_get.mp hp i j hij
  revert hrel
  unfold noteRel noteLE
  cases hpi : ((filterNotes notes ac q).get i).isPinned <;>
    cases hpj : ((filterNotes notes ac q).get j).isPinned <;>
      simp [hpi, hpj]

/-- Witness for C2: two pinned notes with creation times 5 and 10; in the
filtered result the later-created one precedes the earlier one. -/
theorem filterNotes_sort_order_witness :
    ((filterNotes [⟨"a", "t", "c", 5, 5, "work", true, false⟩,
                   ⟨"b", "t", "c", 10, 10, "work", true, false⟩] "all" "").get
        ⟨1, by decide⟩).createdAt ≤
    ((filterNotes [⟨"a", "t", "c", 5, 5, "work", true, false⟩,
                   ⟨"b", "t", "c", 10, 10, "work", true, false⟩] "all" "").get
        ⟨0, by decide⟩).createdAt :=
  (filterNotes_sort_order
      [⟨"a", "t", "c", 5, 5, "work", true, false⟩,
       ⟨"b", "t", "c", 10, 10, "work", true, false⟩] "all" ""
      ⟨0, by decide⟩ ⟨1, by decide⟩ (by decide)).2 (by decide)

/-- C3: Whenever `activeCategory` is not the sentinel `all`, every note in
the result of `filterNotes` has `category` exactly equal to
`activeCategory` (case-sensitive string equality). -/
theorem filterNotes_category_matches (notes : List Note) (ac q : String)
    (hac : ac ≠ "all") :
    ∀ n ∈ filterNotes notes ac q, n.category = ac :=
  fun _ hn => filterNotes_category hac hn

/-- Witness for C3: with `activeCategory = "work"`, the surviving note's
category is `"work"`. -/
theorem filterNotes_category_matches_witness :
    (⟨"a", "t", "c", 5, 5, "work", false, false⟩ : Note).category = "work" :=
  filterNotes_category_matches
    [⟨"a", "t", "c", 5, 5, "work", false, false⟩] "work" "" (by decide)
    _ (by decide)

/-- C4: Whenever the trimmed `searchQuery` is non-empty, every note in the
result of `filterNotes` contains the query as a case-insensitive substring
of its title or of its content (the lowercased query occurs in the
lowercased title or content). -/
theorem filterNotes_search_matches (notes : List Note) (ac q : String)
    (hq : jsTrim q ≠ "") :
    ∀ n ∈ filterNotes notes ac q,
      (strIncludes (jsToLower n.title) (jsToLower q) ||
       strIncludes (jsToLower n.content) (jsToLower q)) = true :=
  fun _ hn => filterNotes_search hq hn

/-- Witness for C4: query `"WORLD"` against a note titled `"Hello World"`. -/
theorem filterNotes_search_matches_witness :
    (strIncludes (jsToLower "Hello World") (jsToLower "WORLD") ||
     strIncludes (jsToLower "body text") (jsToLower "WORLD")) = true :=
  filterNotes_search_matches
    [⟨"a", "Hello World", "body text", 5, 5, "work", false, false⟩] "all" "WORLD"
    (by decide) ⟨"a", "Hello World", "body text", 5, 5, "work", false, false⟩
    (by decide)

/-- C5 counterexample: a stored notes record whose parse fails with a
generic signature (no `Row too big` / `CursorWindow` in the message) makes
`loadInitialState` return a result with NO `storageError` field at all — the
inner catch swallows the failure and control falls through to the normal
return. -/
theorem loadInitialState_generic_parse_failure_unflagged :
    (loadInitialState (some (Except.error "Unexpected end of JSON input"))
        none none).storageError = none := by decide

/-- C5 amended: a parse failure whose message lacks the too-large signature
is swallowed: `loadInitialState` returns the records parsed before the
failure (type-appropriate defaults for the rest) with `storageError` and
`errorMessage` both absent; no generic error is reported for parse
failures. -/
theorem loadInitialState_parse_failure_swallowed (msg : String)
    (h : rowTooBigSignature msg = false) (nd : List Note) (td : Bool)
    (ts : Option (Except String Bool)) (cs : Option (Except String (List String))) :
    loadInitialState (some (.error msg)) ts cs =
      { notes := [], isDarkMode := false, customCategories := [] } ∧
    loadInitialState (some (.ok nd)) (some (.error msg)) cs =
      { notes := nd, isDarkMode := false, customCategories := [] } ∧
    loadInitialState (some (.ok nd)) (some (.ok td)) (some (.error msg)) =
      { notes := nd, isDarkMode := td, customCategories := [] } := by
  unfold loadInitialState handleParseFailure
  refine ⟨?_, ?_, ?_⟩ <;> simp [h]

/-- Witness for the amended C5 at a concrete failing message. -/
theorem loadInitialState_parse_failure_swallowed_witness :
    loadInitialState (some (.error "Unexpected token")) none none =
      { notes := [], isDarkMode := false, customCategories := [] } ∧
    loadInitialState (some (.ok [])) (some (.error "Unexpected token")) none =
      { notes := [], isDarkMode := false, customCategories := [] } ∧
    loadInitialState (some (.ok [])) (some (.ok false)) (some (.error "Unexpected token")) =
      { notes := [], isDarkMode := false, customCategories := [] } :=
  loadInitialState_parse_failure_swallowed "Unexpected token" (by decide)
    [] false none none

/-- C6 counterexample: the store does not enforce the `all` reservation —
from the initial state, `addNote` with a draft whose category is `all`
reaches a state whose collection contains a note with category `all`. -/
theorem addNote_stores_all_category :
    Reachable (addNote initialState 0 "n1" ⟨"t", "c", "all", false, false⟩) ∧
    mkNewNote 0 "n1" ⟨"t", "c", "all", false, false⟩ ∈
      (addNote initialState 0 "n1" ⟨"t", "c", "all", false, false⟩).notes ∧
    (mkNewNote 0 "n1" ⟨"t", "c", "all", false, false⟩).category = "all" :=
  ⟨Reachable.stepAddNote initialState 0 "n1" _ Reachable.init, by decide, by decide⟩

lemma addCustomCategory_mem {s : AppState} {c x : String}
    (h : x ∈ (addCustomCategory s c).customCategories) :
    x ∈ s.customCategories ∨ x = c := by
  unfold addCustomCategory at h
  split at h
  · exact Or.inl h
  · split at h
    · exact Or.inl h
    · rcases List.mem_append.mp h with h1 | h1
      · exact Or.inl h1
      · exact Or.inr (List.mem_singleton.mp h1)

/-- C6 amended: `addNote` and `updateNote` store the caller's category
verbatim — `all` included, as the counterexample shows — but neither
operation ever inserts `all` into the custom-category registry: the
registration guard excludes it. -/
theorem addNote_updateNote_never_register_all (s : AppState) (now : Nat)
    (id nid : String) (draft : NoteDraft) (p : NotePatch)
    (h : "all" ∉ s.customCategories) :
    (addNote s now id draft).notes = mkNewNote now id draft :: s.notes ∧
    "all" ∉ (addNote s now id draft).customCategories ∧
    "all" ∉ (updateNote s now nid p).customCategories := by
  refine ⟨rfl, ?_, ?_⟩
  · intro hmem
    have hmem2 : "all" ∈ (registerDraftCategory s draft.category).customCategories := hmem
    unfold registerDraftCategory at hmem2
    split at hmem2
    · next hcond =>
      rcases addCustomCategory_mem hmem2 with h1 | h1
      · exact h h1
      · rw [← h1] at hcond
        simp at hcond
    · exact h hmem2
  · intro hmem
    unfold updateNote at hmem
    split at hmem
    · exact h hmem
    · have hmem2 : "all" ∈ (registerPatchCategory s p).customCategories := hmem
      unfold registerPatchCategory at hmem2
      split at hmem2
      · next c heq =>
        split at hmem2
        · next hcond =>
          rcases addCustomCategory_mem hmem2 with h1 | h1
          · exact h h1
          · rw [← h1] at hcond
            simp at hcond
        · exact h hmem2
      · exact h hmem2

/-- Witness for the amended C6: a novel category is prepended verbatim and
`all` stays out of the registry, also for an `updateNote` patch that sets
the category to `all`. -/
theorem addNote_updateNote_never_register_all_witness :
    (addNote initialState 1 "n1" ⟨"t", "c", "travel", false, false⟩).notes =
      mkNewNote 1 "n1" ⟨"t", "c", "travel", false, false⟩ :: initialState.notes ∧
    "all" ∉ (addNote initialState 1 "n1" ⟨"t", "c", "travel", false, false⟩).customCategories ∧
    "all" ∉ (updateNote initialState 1 "n2" { category := some "all" }).customCategories :=
  addNote_updateNote_never_register_all initialState 1 "n1" "n2"
    ⟨"t", "c", "travel", false, false⟩ { category := some "all" } (by decide)

/-- C7 counterexample: `updateNote` merges a patch that contains `createdAt`
before stamping `updatedAt := now`, so a patch whose `createdAt` exceeds the
update time breaks `updatedAt >= createdAt`: add a note at time 5, then
patch its `createdAt` to 100 at time 5 — the stored note has
`createdAt = 100 > updatedAt = 5`, in a reachable state. -/
theorem updateNote_patch_breaks_timestamps :
    Reachable (updateNote (addNote initialState 5 "n1" ⟨"t", "c", "work", false, false⟩)
        5 "n1" { createdAt := some 100 }) ∧
    (⟨"n1", "t", "c", 100, 5, "work", false, false⟩ : Note) ∈
      (updateNote (addNote initialState 5 "n1" ⟨"t", "c", "work", false, false⟩)
        5 "n1" { createdAt := some 100 }).notes ∧
    ¬((⟨"n1", "t", "c", 100, 5, "work", false, false⟩ : Note).createdAt ≤
      (⟨"n1", "t", "c", 100, 5, "work", false, false⟩ : Note).updatedAt) :=
  ⟨Reachable.stepUpdateNote _ 5 "n1" _ (Reachable.stepAddNote _ 5 "n1" _ Reachable.init),
   by decide, by decide⟩

/-- C7 amended: `updatedAt >= createdAt` holds after `addNote` (which sets
both to the creation time) and is preserved by `updateNote` for every patch
whose `createdAt` (when present) does not exceed the mutation time, given a
monotone clock: if every note satisfies `createdAt <= updatedAt` and
`createdAt <= t`, and `t <= now`, both operations at time `now` preserve
the invariant with bound `now`. -/
theorem note_timestamps_preserved (s : AppState) (t now : Nat) (id nid : String)
    (draft : NoteDraft) (p : NotePatch)
    (hInv : ∀ n ∈ s.notes, n.createdAt ≤ n.updatedAt ∧ n.createdAt ≤ t)
    (hmono : t ≤ now)
    (hpatch : ∀ c, p.createdAt = some c → c ≤ now) :
    (∀ n ∈ (addNote s now id draft).notes,
      n.createdAt ≤ n.updatedAt ∧ n.createdAt ≤ now) ∧
    (∀ n ∈ (updateNote s now nid p).notes,
      n.createdAt ≤ n.updatedAt ∧ n.createdAt ≤ now) := by
  constructor
  · intro n hn
    have hn2 : n ∈ mkNewNote now id draft :: s.notes := hn
    rcases List.mem_cons.mp hn2 with h1 | h1
    · subst h1
      exact ⟨Nat.le_refl now, Nat.le_refl now⟩
    · rcases hInv n h1 with ⟨h2, h3⟩
      exact ⟨h2, h3.trans hmono⟩
  · intro n hn
    unfold updateNote at hn
    split at hn
    · rcases hInv n hn with ⟨h2, h3⟩
      exact ⟨h2, h3.trans hmono⟩
    · have hn2 : n ∈ s.notes.map
          (fun note => if note.id == nid then applyPatch note p now else note) := hn
      rcases List.mem_map.mp hn2 with ⟨a, ha, hfa⟩
      by_cases hid : (a.id == nid) = true
      · rw [if_pos hid] at hfa
        subst hfa
        unfold applyPatch
        rcases hc : p.createdAt with _ | c
        · simp only [hc, Option.getD]
          rcases hInv a ha with ⟨_, h3⟩
          exact ⟨h3.trans hmono, h3.trans hmono⟩
        · simp only [hc, Option.getD]
          have := hpatch c hc
          exact ⟨this, this⟩
      · rw [if_neg hid] at hfa
        subst hfa
        rcases hInv a ha with ⟨h2, h3⟩
        exact ⟨h2, h3.trans hmono⟩

/-- Witness for the amended C7: a note added at time 3, patched at time 4
with `createdAt := 4`; the updated note satisfies the invariant at time 4. -/
theorem note_timestamps_preserved_witness :
    (⟨"n1", "t", "c", 4, 4, "work", false, false⟩ : Note).createdAt ≤
      (⟨"n1", "t", "c", 4, 4, "work", false, false⟩ : Note).updatedAt ∧
    (⟨"n1", "t", "c", 4, 4, "work", false, false⟩ : Note).createdAt ≤ 4 :=
  (note_timestamps_preserved
      (addNote initialState 3 "n1" ⟨"t", "c", "work", false, false⟩) 3 4 "n2" "n1"
      ⟨"t", "c", "work", false, false⟩ { createdAt := some 4 }
      (by decide) (by decide) (by decide)).2
    ⟨"n1", "t", "c", 4, 4, "work", false, false⟩ (by decide)

lemma recompute_self {s : AppState} (hcons : ViewConsistent s) :
    recompute s s.notes = s := by
  unfold ViewConsistent at hcons
  unfold recompute
  rw [← hcons]

/-- C8: For every id absent from the collection, the id-keyed mutations
`updateNote`, `deleteNote`, `restoreNote`, `pinNote`, `unpinNote` and
`permanentlyDeleteNote` leave the in-memory state — collection, registry,
view selectors and the value of `filteredNotes` — unchanged.  (The
operations return no error value at all, so no error reaches the caller;
the source only logs.)  The state is any reachable store state. -/
theorem absent_id_mutations_noop (s : AppState) (now : Nat) (id : String)
    (p : NotePatch) (hs : Reachable s) (habs : ∀ n ∈ s.notes, n.id ≠ id) :
    updateNote s now id p = s ∧ deleteNote s id = s ∧ restoreNote s id = s ∧
    pinNote s id = s ∧ unpinNote s id = s ∧ permanentlyDeleteNote s id = s := by
  have hcons := reachable_viewConsistent hs
  have hfind : s.notes.find? (fun note => note.id == id) = none := by
    rw [List.find?_eq_none]
    intro n hn
    simp [habs n hn]
  have hmap : ∀ f : Note → Note,
      s.notes.map (fun note => if note.id == id then f note else note) = s.notes := by
    intro f
    conv_rhs => rw [← List.map_id s.notes]
    refine List.map_congr_left ?_
    intro n hn
    simp [habs n hn]
  have hfilter : s.notes.filter (fun note => note.id != id) = s.notes := by
    rw [List.filter_eq_self]
    intro n hn
    simp [habs n hn]
  refine ⟨?_, ?_, ?_, ?_, ?_, ?_⟩
  · unfold updateNote
    rw [hfind]
  · unfold deleteNote
    rw [hmap]
    exact recompute_self hcons
  · unfold restoreNote
    rw [hmap]
    exact recompute_self hcons
  · unfold pinNote
    rw [hmap]
    exact recompute_self hcons
  · unfold unpinNote
    rw [hmap]
    exact recompute_self hcons
  · unfold permanentlyDeleteNote
    rw [hfilter]
    exact recompute_self hcons

/-- Witness for C8: a store holding one note with id `n1`; every id-keyed
mutation against the absent id `nx` returns the state unchanged. -/
theorem absent_id_mutations_noop_witness :
    updateNote (addNote initialState 5 "n1" ⟨"t", "c", "work", false, false⟩) 7 "nx" {} =
      addNote initialState 5 "n1" ⟨"t", "c", "work", false, false⟩ ∧
    deleteNote (addNote initialState 5 "n1" ⟨"t", "c", "work", false, false⟩) "nx" =
      addNote initialState 5 "n1" ⟨"t", "c", "work", false, false⟩ ∧
    restoreNote (addNote initialState 5 "n1" ⟨"t", "c", "work", false, false⟩) "nx" =
      addNote initialState 5 "n1" ⟨"t", "c", "work", false, false⟩ ∧
    pinNote (addNote initialState 5 "n1" ⟨"t", "c", "work", false, false⟩) "nx" =
      addNote initialState 5 "n1" ⟨"t", "c", "work", false, false⟩ ∧
    unpinNote (addNote initialState 5 "n1" ⟨"t", "c", "work", false, false⟩) "nx" =
      addNote initialState 5 "n1" ⟨"t", "c", "work", false, false⟩ ∧
    permanentlyDeleteNote (addNote initialState 5 "n1" ⟨"t", "c", "work", false, false⟩) "nx" =
      addNote initialState 5 "n1" ⟨"t", "c", "work", false, false⟩ :=
  absent_id_mutations_noop
    (addNote initialState 5 "n1" ⟨"t", "c", "work", false, false⟩) 7 "nx" {}
    (Reachable.stepAddNote initialState 5 "n1" _ Reachable.init)
    (by decide)

/-- C9: calling `initialize()` again once the store is `Ready`
(`isInitialized = true`) is a no-op: the state is returned unchanged and no
storage load is performed (the returned flag is `false`), whatever the
pending load outcome would have been. -/
theorem initializeStore_idempotent_after_ready (s : AppState)
    (load : Except Unit LoadResult) (h : s.isInitialized = true) :
    initializeStore s load = (s, false) := by
  unfold initializeStore
  rw [if_pos h]

/-- Witness for C9: a store made `Ready` by `resetAppData`; re-initializing
it changes nothing and performs no load. -/
theorem initializeStore_idempotent_after_ready_witness :
    initializeStore (resetAppData initialState true).1 (Except.error ()) =
      ((resetAppData initialState true).1, false) :=
  initializeStore_idempotent_after_ready (resetAppData initialState true).1
    (Except.error ()) (by decide)

/-- C10: `addCustomCategory` stores its argument verbatim, untrimmed: for
any input whose trimmed form is non-empty and which is not already present
under exact string comparison, the registry becomes the old registry with
the raw name appended — surrounding whitespace intact, so names differing
only in whitespace form distinct entries. -/
theorem addCustomCategory_verbatim (s : AppState) (category : String)
    (h1 : jsTrim category ≠ "") (h2 : category ∉ s.customCategories) :
    (addCustomCategory s category).customCategories =
      s.customCategories ++ [category] := by
  unfold addCustomCategory
  rw [if_neg h1, if_neg (by simpa using h2)]

/-- Witness for C10: with `"work"` registered, adding `" work "` (same name
with surrounding whitespace) passes the exact-string duplicate check and is
appended untrimmed, yielding two distinct entries. -/
theorem addCustomCategory_verbatim_witness :
    (addCustomCategory { initialState with customCategories := ["work"] }
        " work ").customCategories = ["work"] ++ [" work "] :=
  addCustomCategory_verbatim { initialState with customCategories := ["work"] }
    " work " (by decide) (by decide)

end NoteEase
